import Mathlib

/-!
Verification of the Helix deterministic market-microstructure replay engine.

This file gives a shallow embedding, over exact rationals, of the parts of the
engine that the checked properties speak about:

* the taker matching engine (`MatchingEngine::simulate`, walk-the-book),
* the rules normalization engine (`RulesEngine::apply`),
* the order lifecycle manager (`OrderManager`: place / mark_rejected / apply_fill),
* the risk engine position update (`RiskEngine::update`),
* the FNV-1a hash used to seed the latency RNG (`fnv1a64`),
* the run loop's PnL identity computation and its latency scheduler
  (pending min-queue dispatch plus end-of-run flush) from `main.cpp`,
* the L2 delta book reconstructor (modelled from the spec, see the doc
  comments in that section).

C++ `double` values are modelled as `ℚ`; the engine's epsilon comparisons
(1e-9, 1e-6) are carried over literally as rational constants.  All
definitions are executable, so concrete scenarios evaluate by `simp` and
`norm_num`.
-/

namespace Helix

/-- Side of an order / trade (`engine::Side`). -/
inductive Side where
  | Buy
  | Sell
  | Hold
deriving DecidableEq, Repr

/-- One price level of the book (`engine::PriceLevel`). -/
structure PriceLevel where
  price : ℚ
  qty : ℚ
deriving DecidableEq, Repr

/-- Reconstructed book snapshot (`engine::OrderbookSnapshot`). -/
structure OrderbookSnapshot where
  ts_ms : ℤ := 0
  best_bid : ℚ := 0
  best_ask : ℚ := 0
  bid_size : ℚ := 0
  ask_size : ℚ := 0
  bids : List PriceLevel := []
  asks : List PriceLevel := []
deriving DecidableEq, Repr

/-- Strategy / demo action (`engine::Action`), restricted to the fields the
embedded components read. -/
structure Action where
  side : Side := Side.Hold
  size : ℚ := 0
  is_maker : Bool := false
  limit_price : ℚ := 0
deriving DecidableEq, Repr

/-- Fill status (`engine::FillStatus`). -/
inductive FillStatus where
  | Filled
  | Rejected
deriving DecidableEq, Repr

/-- Reject reasons (`engine::RejectReason`). -/
inductive RejectReason where
  | None
  | BadSide
  | ZeroQty
  | NoBid
  | NoAsk
  | NoLiquidity
  | MinQty
  | MinNotional
  | PriceInvalid
  | RiskLimit
deriving DecidableEq, Repr

/-- Liquidity role (`engine::Liquidity`). -/
inductive Liquidity where
  | Maker
  | Taker
deriving DecidableEq, Repr

/-- Execution report (`engine::Fill`); the C++ field `partial` is rendered
`isPartial`. -/
structure Fill where
  order_id : ℕ := 0
  status : FillStatus := FillStatus.Rejected
  reason : RejectReason := RejectReason.None
  price : ℚ := 0
  qty : ℚ := 0
  isPartial : Bool := false
  side : Side := Side.Hold
  liquidity : Liquidity := Liquidity.Taker
  vwap_price : ℚ := 0
  filled_qty : ℚ := 0
  unfilled_qty : ℚ := 0
  levels_crossed : ℕ := 0
  slippage_ticks : ℚ := 0
deriving DecidableEq, Repr

/-- The `Fill::rejected` constructor from `types.hpp`. -/
def Fill.rejected (s : Side) (r : RejectReason) : Fill :=
  { status := FillStatus.Rejected, reason := r, side := s, price := 0, qty := 0,
    isPartial := false }

/-- Rational `std::abs`, written as the source's branch on sign. -/
def ratAbs (x : ℚ) : ℚ := if x < 0 then -x else x

/-! ## Deterministic hashing (`deterministic_hash.hpp`)

`fnv1a64` exactly as written in the source: the offset basis literal is
`1469598103934665603ULL` and the prime is `1099511628211ULL`; `uint64_t`
arithmetic is modelled as `Nat` reduced mod `2 ^ 64`. -/

/-- One FNV-1a step on a byte: xor, then multiply by the prime, mod `2 ^ 64`. -/
def fnv1a64Step (hash : ℕ) (c : ℕ) : ℕ :=
  (Nat.xor hash c * 1099511628211) % (2 ^ 64)

/-- Hash `fnv1a64` over a byte list, with the source's offset basis literal
`1469598103934665603`. -/
def fnv1a64 (bytes : List ℕ) : ℕ :=
  bytes.foldl fnv1a64Step (1469598103934665603 % (2 ^ 64))

/-- Byte view of an ASCII string (`for (unsigned char c : s)`). -/
def strBytes (s : String) : List ℕ :=
  s.data.map Char.toNat

/-- Hash `fnv1a64` applied to a string, as the C++ function takes `std::string`. -/
def fnv1a64Str (s : String) : ℕ :=
  fnv1a64 (strBytes s)

/-- Comparison point following the spec's words: 64-bit FNV-1a with the
standard offset basis `0xCBF29CE484222325` (= 14695981039346656037) and prime
`0x100000001B3`, byte-wise. -/
def fnv1a64SpecBasis (bytes : List ℕ) : ℕ :=
  bytes.foldl fnv1a64Step (14695981039346656037 % (2 ^ 64))

/-! ## PnL identity computation (run aggregator, `main.cpp`)

`net_total` and `identity_lhs` are both computed as
`realized + unrealized - pnl.fees`; `identity_ok` additionally requires both
to be finite, which holds for every rational value. -/

/-- The value `net_total` as computed in `main.cpp`. -/
def netTotal (realized unrealized fees : ℚ) : ℚ :=
  realized + unrealized - fees

/-- The value `identity_lhs` as computed in `main.cpp` (the same expression). -/
def identityLhs (realized unrealized fees : ℚ) : ℚ :=
  realized + unrealized - fees

/-- The check `identity_ok` from `main.cpp`: both values finite (automatic on `ℚ`) and
`|identity_lhs - net_total| <= 1e-6`. -/
def identityOk (realized unrealized fees : ℚ) : Bool :=
  ratAbs (identityLhs realized unrealized fees - netTotal realized unrealized fees)
    ≤ 1 / 1000000

/-! ## Matching engine (`matching_engine.cpp`, walk-the-book version) -/

/-- Helper `side_levels`: the depth vector for the matched side, falling back to a
single synthetic top-of-book level when the vector is empty. -/
def sideLevels (book : OrderbookSnapshot) (side : Side) : List PriceLevel :=
  let levels := if side = Side.Buy then book.asks else book.bids
  if levels ≠ [] then levels
  else if side = Side.Buy ∧ 0 < book.best_ask ∧ 0 < book.ask_size then
    [⟨book.best_ask, book.ask_size⟩]
  else if side = Side.Sell ∧ 0 < book.best_bid ∧ 0 < book.bid_size then
    [⟨book.best_bid, book.bid_size⟩]
  else []

/-- Helper `best_price_for_side`: front of the depth vector, else the top-of-book. -/
def bestPriceForSide (book : OrderbookSnapshot) (side : Side) : ℚ :=
  match side with
  | Side.Buy => match book.asks with
    | [] => book.best_ask
    | l :: _ => l.price
  | Side.Sell => match book.bids with
    | [] => book.best_bid
    | l :: _ => l.price
  | Side.Hold => 0

/-- The matching loop of `MatchingEngine::simulate`: walks the levels with a
running `remaining`, skipping non-positive levels, trading
`min(remaining, level_qty)` at each level; returns
`(filled, notional, levels_crossed)`. -/
def walk : List PriceLevel → ℚ → ℚ × ℚ × ℕ
  | [], _ => (0, 0, 0)
  | l :: ls, rem =>
    if rem ≤ 0 then (0, 0, 0)
    else if l.qty ≤ 0 then walk ls rem
    else
      let traded := min rem l.qty
      let r := walk ls (rem - traded)
      (traded + r.1, traded * l.price + r.2.1, r.2.2 + 1)

/-- Per-level traded quantities of the matching loop (`traded_i`): one entry
per visited level (zero for skipped zero-qty levels), ending where the loop
breaks. -/
def tradedAmounts : List PriceLevel → ℚ → List ℚ
  | [], _ => []
  | l :: ls, rem =>
    if rem ≤ 0 then []
    else if l.qty ≤ 0 then 0 :: tradedAmounts ls rem
    else min rem l.qty :: tradedAmounts ls (rem - min rem l.qty)

/-- Configuration of `MatchingEngine`: the tick size and the FOK flag
`reject_on_insufficient_depth_`. -/
structure MatchCfg where
  tick_size : ℚ
  reject_on_insufficient_depth : Bool := false
deriving DecidableEq, Repr

/-- Function `MatchingEngine::simulate` (taker walk-the-book).  The C++ loop variable
`remaining` ends at `action.size - filled` (it starts at `action.size` and
each iteration subtracts exactly the traded amount), which is how it is
written here. -/
def simulate (cfg : MatchCfg) (action : Action) (book : OrderbookSnapshot) : Fill :=
  if action.side ≠ Side.Buy ∧ action.side ≠ Side.Sell then
    Fill.rejected action.side RejectReason.BadSide
  else if action.size ≤ 0 then
    Fill.rejected action.side RejectReason.ZeroQty
  else
    let levels := sideLevels book action.side
    if levels = [] then
      Fill.rejected action.side
        (if action.side = Side.Buy then RejectReason.NoAsk else RejectReason.NoBid)
    else
      let w := walk levels action.size
      let filled := w.1
      let notional := w.2.1
      let crossed := w.2.2
      let remaining := action.size - filled
      if filled ≤ 0 then
        Fill.rejected action.side RejectReason.NoLiquidity
      else if cfg.reject_on_insufficient_depth = true ∧ 0 < remaining then
        Fill.rejected action.side RejectReason.NoLiquidity
      else
        let vwap := notional / filled
        let best := bestPriceForSide book action.side
        let slip :=
          if 0 < best ∧ 0 < cfg.tick_size then
            if action.side = Side.Buy then (vwap - best) / cfg.tick_size
            else (best - vwap) / cfg.tick_size
          else 0
        { status := FillStatus.Filled
          reason := RejectReason.None
          isPartial := decide (0 < remaining)
          qty := filled
          filled_qty := filled
          unfilled_qty := if 0 < remaining then remaining else 0
          price := vwap
          vwap_price := vwap
          levels_crossed := crossed
          slippage_ticks := slip
          side := action.side
          liquidity := Liquidity.Taker }

/-! ## Rules engine (`rules_engine.cpp`) -/

/-- Venue rules configuration (`engine::RulesConfig`). -/
structure RulesConfig where
  tick_size : ℚ := 0
  qty_step : ℚ := 0
  min_qty : ℚ := 0
  min_notional : ℚ := 0
deriving DecidableEq, Repr

/-- Result of rules normalization (`engine::RulesResult`). -/
structure RulesResult where
  ok : Bool := false
  normalized : Action
  reason : RejectReason := RejectReason.None
deriving DecidableEq, Repr

/-- Helper `floor_to_step`: `std::floor(value / step) * step`, guarded on the step. -/
def floorToStep (value step : ℚ) : ℚ :=
  if step ≤ 0 then value else (⌊value / step⌋ : ℚ) * step

/-- Helper `ceil_to_step`: `std::ceil(value / step) * step`, guarded on the step. -/
def ceilToStep (value step : ℚ) : ℚ :=
  if step ≤ 0 then value else (⌈value / step⌉ : ℚ) * step

/-- Helper `ref_price_for_action`: the explicit limit, else a same-logic book
reference for the action's side. -/
def refPriceForAction (a : Action) (book : OrderbookSnapshot) : ℚ :=
  if 0 < a.limit_price then a.limit_price
  else match a.side with
    | Side.Buy => if 0 < book.best_ask then book.best_ask else book.best_bid
    | Side.Sell => if 0 < book.best_bid then book.best_bid else book.best_ask
    | Side.Hold => 0

/-- Function `RulesEngine::apply`: side and size checks, qty quantization (floor to
`qty_step`), price quantization (floor for Buy, ceil for Sell; maker snap to
same-side best when no explicit limit), then min-qty / reference-price /
min-notional checks. -/
def rulesApply (cfg : RulesConfig) (a : Action) (book : OrderbookSnapshot) : RulesResult :=
  if a.side ≠ Side.Buy ∧ a.side ≠ Side.Sell then
    { ok := false, normalized := a, reason := RejectReason.BadSide }
  else if a.size ≤ 0 then
    { ok := false, normalized := a, reason := RejectReason.ZeroQty }
  else
    let norm_qty := if 0 < cfg.qty_step then floorToStep a.size cfg.qty_step else a.size
    if norm_qty < cfg.min_qty - 1 / 1000000000 then
      { ok := false, normalized := a, reason := RejectReason.MinQty }
    else
      let norm_price :=
        if 0 < a.limit_price ∧ 0 < cfg.tick_size then
          if a.side = Side.Buy then floorToStep a.limit_price cfg.tick_size
          else ceilToStep a.limit_price cfg.tick_size
        else if a.is_maker = true ∧ a.limit_price ≤ 0 then
          if a.side = Side.Buy then floorToStep book.best_bid cfg.tick_size
          else ceilToStep book.best_ask cfg.tick_size
        else a.limit_price
      let normalized := { a with size := norm_qty, limit_price := norm_price }
      let ref_price := refPriceForAction normalized book
      if ¬ 0 < ref_price then
        { ok := false, normalized := normalized, reason := RejectReason.PriceInvalid }
      else if 0 < cfg.min_notional ∧ norm_qty * ref_price < cfg.min_notional - 1 / 1000000000 then
        { ok := false, normalized := normalized, reason := RejectReason.MinNotional }
      else
        { ok := true, normalized := normalized, reason := RejectReason.None }

/-! ## Order lifecycle manager (`order_manager.cpp`) -/

/-- Order status (`engine::OrderStatus`). -/
inductive OrderStatus where
  | New
  | Partial
  | Filled
  | Cancelled
  | Expired
  | Replaced
  | Rejected
deriving DecidableEq, Repr

/-- An order owned by the manager (`engine::Order`), restricted to the fields
the embedded operations touch. -/
structure Order where
  order_id : ℕ := 0
  side : Side := Side.Hold
  price : ℚ := 0
  qty : ℚ := 0
  filled_qty : ℚ := 0
  avg_fill_price : ℚ := 0
  status : OrderStatus := OrderStatus.New
  created_ts : ℤ := 0
  last_update_ts : ℤ := 0
  expire_ts : ℤ := 0
deriving DecidableEq, Repr

/-- State of `OrderManager`: id counter, id-keyed order store, persistent
error flag and the metrics counters the claims mention. -/
structure OMgr where
  next_order_id : ℕ := 1
  orders : List (ℕ × Order) := []
  error : Bool := false
  illegal_transitions : ℕ := 0
  orders_rejected : ℕ := 0
deriving DecidableEq, Repr

/-- Store lookup (`orders_.find`). -/
def omFind (m : OMgr) (id : ℕ) : Option Order :=
  List.lookup id m.orders

/-- Status of an order in the store, if present. -/
def omStatus (m : OMgr) (id : ℕ) : Option OrderStatus :=
  (omFind m id).map Order.status

/-- In-place update of one order in the store. -/
def omUpdate (m : OMgr) (id : ℕ) (f : Order → Order) : OMgr :=
  { m with orders := m.orders.map (fun p => if p.1 = id then (p.1, f p.2) else p) }

/-- Function `OrderManager::place`: fresh monotonic id, status `New`. -/
def omPlace (m : OMgr) (a : Action) (now_ts expire_ts : ℤ) : OMgr × Order :=
  let ord : Order :=
    { order_id := m.next_order_id
      side := a.side
      price := a.limit_price
      qty := a.size
      filled_qty := 0
      avg_fill_price := 0
      status := OrderStatus.New
      created_ts := now_ts
      last_update_ts := now_ts
      expire_ts := expire_ts }
  ({ m with next_order_id := m.next_order_id + 1,
            orders := m.orders ++ [(ord.order_id, ord)] }, ord)

/-- Function `OrderManager::mark_rejected`: `New`/`Partial` orders transition to
`Rejected`; anything else is untouched. -/
def omMarkRejected (m : OMgr) (id : ℕ) (now_ts : ℤ) : OMgr :=
  match omFind m id with
  | Option.none => m
  | Option.some ord =>
    if ord.status = OrderStatus.New ∨ ord.status = OrderStatus.Partial then
      { omUpdate m id (fun o =>
          { o with status := OrderStatus.Rejected, last_update_ts := now_ts }) with
        orders_rejected := m.orders_rejected + 1 }
    else m

/-- Function `OrderManager::apply_fill`, as written in the source: fatal (error flag
set, `false` returned) on unknown order, on status in
`{Cancelled, Expired, Replaced, Filled}` (note: `Rejected` is not in this
list), on side mismatch, and on overfill beyond `qty + 1e-6`; otherwise
updates `filled_qty`, the weighted `avg_fill_price`, and the status
(`Filled` when `filled + 1e-9 >= qty`, else `Partial`). -/
def omApplyFill (m : OMgr) (f : Fill) (now_ts : ℤ) : OMgr × Bool :=
  match omFind m f.order_id with
  | Option.none => ({ m with error := true }, false)
  | Option.some ord =>
    if ord.status = OrderStatus.Cancelled ∨ ord.status = OrderStatus.Expired ∨
        ord.status = OrderStatus.Replaced ∨ ord.status = OrderStatus.Filled then
      ({ m with error := true, illegal_transitions := m.illegal_transitions + 1 }, false)
    else if f.side ≠ ord.side then
      ({ m with error := true, illegal_transitions := m.illegal_transitions + 1 }, false)
    else
      let prev_filled := ord.filled_qty
      let new_filled := prev_filled + f.filled_qty
      if ord.qty + 1 / 1000000 < new_filled then
        ({ m with error := true, illegal_transitions := m.illegal_transitions + 1 }, false)
      else
        let total_notional := ord.avg_fill_price * prev_filled + f.vwap_price * f.filled_qty
        let m2 := omUpdate m f.order_id (fun o =>
          { o with
            filled_qty := new_filled
            avg_fill_price := if 0 < new_filled then total_notional / new_filled
                              else o.avg_fill_price
            last_update_ts := now_ts
            status := if ord.qty ≤ new_filled + 1 / 1000000000 then OrderStatus.Filled
                      else OrderStatus.Partial })
        (m2, true)

/-! ## Risk engine position update (`risk_engine.cpp`, realized-PnL version) -/

/-- Signed position (`engine::Position`). -/
structure Position where
  qty : ℚ := 0
  avg_price : ℚ := 0
  pnl : ℚ := 0
  realized_pnl : ℚ := 0
deriving DecidableEq, Repr

/-- Function `RiskEngine::update`: realize PnL on the closed portion when the fill
reduces or flips the position, then update the weighted average price and the
signed quantity. -/
def riskUpdate (p : Position) (f : Fill) : Position :=
  let signed_qty := if f.side = Side.Buy then f.qty else -f.qty
  let previous_qty := p.qty
  let previous_avg := p.avg_price
  let new_qty := previous_qty + signed_qty
  let p1 :=
    if previous_qty ≠ 0 ∧
        ((0 < previous_qty ∧ signed_qty < 0) ∨ (previous_qty < 0 ∧ 0 < signed_qty)) then
      let closed_qty := min (ratAbs previous_qty) (ratAbs signed_qty)
      let realized := closed_qty * (f.price - previous_avg) *
        (if 0 < previous_qty then 1 else -1)
      { p with realized_pnl := p.realized_pnl + realized, pnl := p.pnl + realized }
    else p
  let p2 :=
    if new_qty = 0 then { p1 with avg_price := 0 }
    else { p1 with avg_price := (previous_avg * previous_qty + f.price * signed_qty) / new_qty }
  { p2 with qty := new_qty }

/-! ## Latency scheduler and pending-action dispatch (`main.cpp`)

The run loop schedules each non-maker action decided at `now_ts` with latency
`L` at `fill_ts = now_ts + static_cast<int64_t>(L)` on a min-heap ordered by
`fill_ts`; on each tick it pops every entry with `fill_ts <= now_ts` and
matches it against the current book; after the replay loop it flushes every
remaining entry against the last known book regardless of `fill_ts`.  The
model below keeps, for each tick, the book timestamp and the latencies of the
actions decided on that tick. -/

/-- Cast `static_cast<int64_t>` of a `double`: truncation toward zero. -/
def i64trunc (x : ℚ) : ℤ :=
  if 0 ≤ x then ⌊x⌋ else ⌈x⌉

/-- A scheduled pending action: decision time, computed latency, and the
scheduled `fill_ts`. -/
structure PendingSched where
  decide_ts : ℤ
  lat : ℚ
  fill_ts : ℤ
deriving DecidableEq, Repr

/-- Scheduling of one action decided at `t` with latency `lat`
(`fill_ts = now_ts + static_cast<int64_t>(latency_ms)`). -/
def schedulePending (t : ℤ) (lat : ℚ) : PendingSched :=
  ⟨t, lat, t + i64trunc lat⟩

/-- The replay loop's dispatch: per tick `(t, lats)`, fire every pending
entry with `fill_ts ≤ t` against the book at `t`, then schedule the actions
decided at `t`.  Returns the fired `(book_ts, pending)` pairs and the entries
still pending when the delta stream is exhausted. -/
def loopMatches : List (ℤ × List ℚ) → List PendingSched →
    List (ℤ × PendingSched) × List PendingSched
  | [], pend => ([], pend)
  | tick :: rest, pend =>
    let fired := (pend.filter (fun p => p.fill_ts ≤ tick.1)).map (fun p => (tick.1, p))
    let next := pend.filter (fun p => ¬ p.fill_ts ≤ tick.1) ++
      tick.2.map (schedulePending tick.1)
    let r := loopMatches rest next
    (fired ++ r.1, r.2)

/-- The end-of-run flush (`main.cpp`, after the replay loop): every remaining
pending entry is matched against the last known book state, with no check of
its `fill_ts`. -/
def flushMatches (last_ts : ℤ) (pend : List PendingSched) : List (ℤ × PendingSched) :=
  pend.map (fun p => (last_ts, p))

/-- All `(book_ts, pending)` match pairs a run produces: the in-loop
dispatches, then the end-of-run flush against the final book timestamp. -/
def allMatches (ticks : List (ℤ × List ℚ)) : List (ℤ × PendingSched) :=
  let r := loopMatches ticks []
  r.1 ++ flushMatches ((ticks.map Prod.fst).getLast?.getD 0) r.2

/-! ## L2 delta book reconstructor

Modelled from the spec: the `TickReplay` translation unit that implements the
interface declared in the newer `tick_replay.hpp` (with `set_error`,
`check_invariants`, `snapshot_in_progress_`, bookcheck and trade draining) is
not part of the source tree; only that header and its caller `main.cpp` are.
The definitions in this section therefore follow §4.1 of the specification
verbatim (snapshot handling, seq-gap / seq-rollback / negative-qty fatality,
top-of-book rebuild and the post-snapshot invariant check). -/

/-- Modelled from the spec: one L2 book delta (`engine::BookDelta`). -/
structure BookDelta where
  seq : ℤ := 0
  prev_seq : ℤ := 0
  is_snapshot : Bool := false
  ts_ms : ℤ := 0
  side : Side := Side.Hold
  price : ℚ := 0
  qty : ℚ := 0
deriving DecidableEq, Repr

/-- A price-to-qty mapping, kept sorted by the insert operations. -/
abbrev LevelMap := List (ℚ × ℚ)

/-- Modelled from the spec: set a bid level, keeping descending price order
and replacing an existing level at the same price. -/
def insertBid (x : ℚ × ℚ) : LevelMap → LevelMap
  | [] => [x]
  | y :: ys =>
    if y.1 < x.1 then x :: y :: ys
    else if y.1 = x.1 then x :: ys
    else y :: insertBid x ys

/-- Modelled from the spec: set an ask level, keeping ascending price order
and replacing an existing level at the same price. -/
def insertAsk (x : ℚ × ℚ) : LevelMap → LevelMap
  | [] => [x]
  | y :: ys =>
    if x.1 < y.1 then x :: y :: ys
    else if y.1 = x.1 then x :: ys
    else y :: insertAsk x ys

/-- Modelled from the spec: delete the level at a price. -/
def eraseLevel (price : ℚ) (m : LevelMap) : LevelMap :=
  m.filter (fun y => y.1 ≠ price)

/-- Modelled from the spec: reconstructor state — the two sorted sides,
`last_seq` (initially -1), `last_ts`, the `snapshot_in_progress` marker and
the snapshot exposed after the last applied delta. -/
structure ReplayState where
  bids : LevelMap := []
  asks : LevelMap := []
  last_seq : ℤ := -1
  last_ts : ℤ := 0
  snapshot_in_progress : Bool := false
  book : OrderbookSnapshot := {}
deriving DecidableEq, Repr

/-- Modelled from the spec: rebuild the exposed snapshot; best bid is the
highest bid with positive qty, best ask the lowest ask with positive qty. -/
def rebuildBook (ts : ℤ) (bids asks : LevelMap) : OrderbookSnapshot :=
  let pb := bids.filter (fun y => 0 < y.2)
  let pa := asks.filter (fun y => 0 < y.2)
  { ts_ms := ts
    best_bid := ((pb.head?).map Prod.fst).getD 0
    bid_size := ((pb.head?).map Prod.snd).getD 0
    best_ask := ((pa.head?).map Prod.fst).getD 0
    ask_size := ((pa.head?).map Prod.snd).getD 0
    bids := pb.map (fun y => ⟨y.1, y.2⟩)
    asks := pa.map (fun y => ⟨y.1, y.2⟩) }

/-- Modelled from the spec: the top-of-book invariant required when not
mid-snapshot (`mid finite` holds for every rational book). -/
def bookValid (b : OrderbookSnapshot) : Prop :=
  0 < b.best_bid ∧ 0 < b.best_ask ∧ b.best_bid < b.best_ask ∧
    0 < b.bid_size ∧ 0 < b.ask_size

instance (b : OrderbookSnapshot) : Decidable (bookValid b) := by
  unfold bookValid
  infer_instance

/-- Modelled from the spec: a delta opens a snapshot when `is_snapshot` is
set, or implicitly when `prev_seq == 0` without the flag. -/
def snapshotStart (d : BookDelta) : Prop :=
  d.is_snapshot = true ∨ (d.is_snapshot = false ∧ d.prev_seq = 0)

instance (d : BookDelta) : Decidable (snapshotStart d) := by
  unfold snapshotStart
  infer_instance

/-- Modelled from the spec: apply the level mutation of a delta — delete when
`|qty| < 1e-9`, else set. -/
def applyLevel (s : ReplayState) (d : BookDelta) : ReplayState :=
  if ratAbs d.qty < 1 / 1000000000 then
    match d.side with
    | Side.Buy => { s with bids := eraseLevel d.price s.bids }
    | _ => { s with asks := eraseLevel d.price s.asks }
  else
    match d.side with
    | Side.Buy => { s with bids := insertBid (d.price, d.qty) s.bids }
    | _ => { s with asks := insertAsk (d.price, d.qty) s.asks }

/-- Modelled from the spec: the state transformation of one applied delta
(steps 1 and 3-6 of §4.1): snapshot clearing, `last_seq`/`last_ts` advance,
level mutation, snapshot rebuild, and clearing `snapshot_in_progress` once
both sides are populated. -/
def applyDeltaState (s : ReplayState) (d : BookDelta) : ReplayState :=
  let s0 := if snapshotStart d then
      { s with bids := [], asks := [], snapshot_in_progress := true }
    else s
  let s1 := { s0 with last_seq := d.seq, last_ts := max (s0.last_ts + 1) d.ts_ms }
  let s2 := applyLevel s1 d
  let s3 := { s2 with book := rebuildBook s2.last_ts s2.bids s2.asks }
  if s3.book.bids ≠ [] ∧ s3.book.asks ≠ [] then
    { s3 with snapshot_in_progress := false }
  else s3

/-- Modelled from the spec: apply one delta with the fatal checks of §4.1 —
seq-gap (`last_seq ≥ 0` and `prev_seq ≠ last_seq`) and seq-rollback
(`seq ≤ last_seq`) for non-snapshot deltas, negative qty, and the
top-of-book invariant when not mid-snapshot. -/
def applyDelta (s : ReplayState) (d : BookDelta) : Except String ReplayState :=
  if ¬ snapshotStart d ∧ 0 ≤ s.last_seq ∧ d.prev_seq ≠ s.last_seq then
    Except.error "fatal seq-gap"
  else if ¬ snapshotStart d ∧ d.seq ≤ s.last_seq then
    Except.error "fatal seq-rollback"
  else if d.qty < 0 then
    Except.error "fatal negative qty"
  else
    let s4 := applyDeltaState s d
    if s4.snapshot_in_progress = false ∧ ¬ bookValid s4.book then
      Except.error "fatal top-of-book invariant"
    else Except.ok s4

/-- Modelled from the spec: the replay loop — exit code 0 when every delta
applies, exit code 1 on the first fatal invariant. -/
def replayRun : ReplayState → List BookDelta → ℤ
  | _, [] => 0
  | s, d :: ds =>
    match applyDelta s d with
    | Except.error _ => 1
    | Except.ok s2 => replayRun s2 ds

/-! ## Helper lemmas -/

/-- Lemma: `ratAbs` agrees with the mathematical absolute value. -/
theorem ratAbs_eq_abs (x : ℚ) : ratAbs x = |x| := by
  unfold ratAbs
  by_cases h : x < 0
  · rw [if_pos h, abs_of_neg h]
  · rw [if_neg h, abs_of_nonneg (not_lt.mp h)]

/-- The filled quantity of the matching loop is the sum of the per-level
traded amounts. -/
theorem walk_filled_eq_sum (levels : List PriceLevel) :
    ∀ rem : ℚ, (walk levels rem).1 = (tradedAmounts levels rem).sum := by
  induction levels with
  | nil => intro rem; simp [walk, tradedAmounts]
  | cons l ls ih =>
    intro rem
    by_cases h1 : rem ≤ 0
    · simp [walk, tradedAmounts, h1]
    · by_cases h2 : l.qty ≤ 0
      · simp [walk, tradedAmounts, h1, h2, ih]
      · simp [walk, tradedAmounts, h1, h2, ih]

/-- The notional of the matching loop is the sum of `traded_i * price_i`. -/
theorem walk_notional_eq_sum (levels : List PriceLevel) :
    ∀ rem : ℚ, (walk levels rem).2.1 =
      (List.zipWith (fun t (l : PriceLevel) => t * l.price)
        (tradedAmounts levels rem) levels).sum := by
  induction levels with
  | nil => intro rem; simp [walk, tradedAmounts]
  | cons l ls ih =>
    intro rem
    by_cases h1 : rem ≤ 0
    · simp [walk, tradedAmounts, h1]
    · by_cases h2 : l.qty ≤ 0
      · simp [walk, tradedAmounts, h1, h2, ih]
      · simp [walk, tradedAmounts, h1, h2, ih]

/-- Field `levels_crossed` of the matching loop counts the levels with a strictly
positive traded amount. -/
theorem walk_crossed_eq_count (levels : List PriceLevel) :
    ∀ rem : ℚ, (walk levels rem).2.2 =
      (tradedAmounts levels rem).countP (fun t => decide (0 < t)) := by
  induction levels with
  | nil => intro rem; simp [walk, tradedAmounts]
  | cons l ls ih =>
    intro rem
    by_cases h1 : rem ≤ 0
    · simp [walk, tradedAmounts, h1]
    · by_cases h2 : l.qty ≤ 0
      · simp [walk, tradedAmounts, h1, h2, ih, List.countP_cons]
      · have hpos : 0 < min rem l.qty := lt_min (not_le.mp h1) (not_le.mp h2)
        simp [walk, tradedAmounts, h1, h2, ih, List.countP_cons, hpos]

/-- The matching loop never fills a negative quantity. -/
theorem walk_filled_nonneg (levels : List PriceLevel) :
    ∀ rem : ℚ, 0 ≤ (walk levels rem).1 := by
  induction levels with
  | nil => intro rem; simp [walk]
  | cons l ls ih =>
    intro rem
    by_cases h1 : rem ≤ 0
    · simp [walk, h1]
    · by_cases h2 : l.qty ≤ 0
      · simp [walk, h1, h2, ih]
      · have hpos : 0 < min rem l.qty := lt_min (not_le.mp h1) (not_le.mp h2)
        have := ih (rem - min rem l.qty)
        simp only [walk, if_neg h1, if_neg h2]
        linarith

/-- The matching loop never fills more than the requested size. -/
theorem walk_filled_le (levels : List PriceLevel) :
    ∀ rem : ℚ, 0 ≤ rem → (walk levels rem).1 ≤ rem := by
  induction levels with
  | nil => intro rem h; simpa [walk] using h
  | cons l ls ih =>
    intro rem h
    by_cases h1 : rem ≤ 0
    · simpa [walk, h1] using h
    · by_cases h2 : l.qty ≤ 0
      · simpa [walk, h1, h2] using ih rem h
      · have hmin : min rem l.qty ≤ rem := min_le_left _ _
        have := ih (rem - min rem l.qty) (by linarith)
        simp only [walk, if_neg h1, if_neg h2]
        linarith

/-- Every in-loop dispatch of a pending action happens on a book whose
timestamp is at least the scheduled `fill_ts`. -/
theorem loopMatches_causal (ticks : List (ℤ × List ℚ)) :
    ∀ (pend : List PendingSched) (m : ℤ × PendingSched),
      m ∈ (loopMatches ticks pend).1 → m.2.fill_ts ≤ m.1 := by
  induction ticks with
  | nil => intro pend m hm; simp [loopMatches] at hm
  | cons tick rest ih =>
    intro pend m hm
    simp only [loopMatches, List.mem_append, List.mem_map, List.mem_filter] at hm
    rcases hm with ⟨p, ⟨_, hts⟩, rfl⟩ | h
    · simpa using of_decide_eq_true hts
    · exact ih _ _ h

/-! ## Claim theorems -/

/-- C8 counterexample: `fnv1a64("SIM#1#42")` is `6924961391117258329`, which
is not the claim's hex literal `0x6014C97E9F0A4A59` (= 6923380072846608985),
and the function does not agree with FNV-1a over the standard offset basis
`0xCBF29CE484222325` on this input (the source's basis literal drops the
final digit of the standard constant). -/
theorem c8_hash_mismatch :
    fnv1a64Str "SIM#1#42" = 6924961391117258329 ∧
    fnv1a64Str "SIM#1#42" ≠ 0x6014C97E9F0A4A59 ∧
    fnv1a64Str "SIM#1#42" ≠ fnv1a64SpecBasis (strBytes "SIM#1#42") := by
  refine ⟨by decide, by decide, by decide⟩

/-- C8 (amended): `fnv1a64` is the byte-wise xor-multiply fold with prime
`0x100000001B3` over offset basis `1469598103934665603`
(= `0x14650FB0739D0383`, a truncation of the standard FNV basis), and on
`"SIM#1#42"` it yields `6924961391117258329` = `0x601A67B1F8D6CE59`. -/
theorem c8_fnv1a64_value :
    fnv1a64 [] = 1469598103934665603 ∧
    (∀ (bytes : List ℕ) (c : ℕ),
      fnv1a64 (bytes ++ [c]) = (Nat.xor (fnv1a64 bytes) c * 0x100000001B3) % (2 ^ 64)) ∧
    fnv1a64Str "SIM#1#42" = 0x601A67B1F8D6CE59 := by
  refine ⟨by decide, ?_, by decide⟩
  intro bytes c
  simp [fnv1a64, fnv1a64Step, List.foldl_append]

/-- C9: `identity_ok` is true for all (finite) inputs, because `net_total`
and `identity_lhs` are the same expression `realized + unrealized - fees`;
the identity-violation fatal branch of the run loop is unreachable over
exact arithmetic. -/
theorem c9_identity_ok_unconditional :
    ∀ realized unrealized fees : ℚ, identityOk realized unrealized fees = true := by
  intro r u f
  simp [identityOk, identityLhs, netTotal, ratAbs]

/-- C2 counterexample: an action decided at `t = 100` with latency `L = 5` is
scheduled at `fill_ts = 105`, yet when the delta stream ends at `t = 100` the
end-of-run flush matches it against the final book at timestamp `100 < 105`,
violating latency causality as stated. -/
theorem c2_end_of_run_flush_breaks_causality :
    allMatches [(100, [5])] = [(100, schedulePending 100 5)] ∧
    (schedulePending 100 5).fill_ts = 105 ∧ (100 : ℤ) < 105 := by
  norm_num [allMatches, loopMatches, flushMatches, schedulePending, i64trunc]

/-- C2 (amended): every non-maker action decided at `t` with latency
`L ≥ 0` is scheduled at `fill_ts = t + ⌊L⌋`, and every dispatch performed by
the replay loop itself matches the action against a book whose timestamp is
at least its `fill_ts`; only the end-of-run flush matches the remaining
pending actions against the final book regardless of `fill_ts`. -/
theorem c2_latency_schedule_and_loop_causality :
    (∀ (t : ℤ) (L : ℚ), 0 ≤ L → (schedulePending t L).fill_ts = t + ⌊L⌋) ∧
    (∀ (ticks : List (ℤ × List ℚ)) (pend : List PendingSched) (m : ℤ × PendingSched),
      m ∈ (loopMatches ticks pend).1 → m.2.fill_ts ≤ m.1) := by
  constructor
  · intro t L hL
    simp [schedulePending, i64trunc, hL]
  · exact fun ticks => loopMatches_causal ticks

/-- C2 witness: the amended theorem applied at `t = 100`, `L = 7/2` (so
`fill_ts = 103`) and at the loop dispatch of that action on a book at
`t = 110`. -/
theorem c2_latency_schedule_and_loop_causality_witness :
    (schedulePending 100 (7/2)).fill_ts = 100 + ⌊(7/2 : ℚ)⌋ ∧
    (110, schedulePending 100 (7/2)).2.fill_ts ≤ (110, schedulePending 100 (7/2)).1 := by
  constructor
  · exact c2_latency_schedule_and_loop_causality.1 100 (7/2) (by norm_num)
  · refine c2_latency_schedule_and_loop_causality.2 [(110, [])]
      [schedulePending 100 (7/2)] (110, schedulePending 100 (7/2)) ?_
    norm_num [loopMatches, schedulePending, i64trunc]

/-- C3 (modelled from the spec): for a delta that is not treated as a
snapshot, with `last_seq ≥ 0`, a sequence gap (`prev_seq ≠ last_seq`) and a
sequence rollback (`seq ≤ last_seq`) are both fatal, and the run exits with
code 1 rather than completing normally. -/
theorem c3_seq_gap_and_rollback_fatal :
    ∀ (s : ReplayState) (d : BookDelta) (ds : List BookDelta),
      d.is_snapshot = false → d.prev_seq ≠ 0 → 0 ≤ s.last_seq →
      (d.prev_seq ≠ s.last_seq ∨ d.seq ≤ s.last_seq) →
      (∃ msg, applyDelta s d = Except.error msg) ∧ replayRun s (d :: ds) = 1 := by
  intro s d ds h1 h2 h3 h4
  have hsnap : ¬ snapshotStart d := by simp [snapshotStart, h1, h2]
  by_cases hgap : d.prev_seq = s.last_seq
  · have hroll : d.seq ≤ s.last_seq := by
      rcases h4 with h | h
      · exact absurd hgap h
      · exact h
    have he : applyDelta s d = Except.error "fatal seq-rollback" := by
      simp [applyDelta, hsnap, hgap, hroll]
    exact ⟨⟨_, he⟩, by simp [replayRun, he]⟩
  · have he : applyDelta s d = Except.error "fatal seq-gap" := by
      simp [applyDelta, hsnap, h3, hgap]
    exact ⟨⟨_, he⟩, by simp [replayRun, he]⟩

/-- C3 witness: a state at `last_seq = 7` receiving a non-snapshot delta with
`prev_seq = 5` (a gap): the apply is fatal and the run exits 1. -/
theorem c3_seq_gap_and_rollback_fatal_witness :
    (∃ msg, applyDelta
      { bids := [(100, 5)], asks := [(101, 6)], last_seq := 7, last_ts := 50,
        snapshot_in_progress := false }
      { seq := 8, prev_seq := 5, ts_ms := 60, side := Side.Buy, price := 99, qty := 2 } =
        Except.error msg) ∧
    replayRun
      { bids := [(100, 5)], asks := [(101, 6)], last_seq := 7, last_ts := 50,
        snapshot_in_progress := false }
      [{ seq := 8, prev_seq := 5, ts_ms := 60, side := Side.Buy, price := 99, qty := 2 }] = 1 := by
  exact c3_seq_gap_and_rollback_fatal _ _ _ rfl (by decide) (by decide) (Or.inl (by decide))

/-- C4 (modelled from the spec): after a successfully applied delta, when the
book is not mid-snapshot, the rebuilt snapshot satisfies the top-of-book
invariant (`best_bid > 0`, `best_ask > 0`, `best_bid < best_ask`,
`bid_size > 0`, `ask_size > 0`; the mid of two rationals is always finite);
and whenever the post-delta state is not mid-snapshot but violates the
invariant, the run exits with code 1. -/
theorem c4_top_of_book_invariant :
    (∀ (s : ReplayState) (d : BookDelta) (s2 : ReplayState),
      applyDelta s d = Except.ok s2 → s2.snapshot_in_progress = false →
      bookValid s2.book) ∧
    (∀ (s : ReplayState) (d : BookDelta) (ds : List BookDelta),
      (applyDeltaState s d).snapshot_in_progress = false →
      ¬ bookValid (applyDeltaState s d).book →
      replayRun s (d :: ds) = 1) := by
  constructor
  · intro s d s2 h hip
    simp only [applyDelta] at h
    split_ifs at h with h1 h2 h3 h4
    all_goals simp only [Except.ok.injEq, reduceCtorEq] at h
    rw [← h] at hip ⊢
    by_contra hb
    exact h4 ⟨hip, hb⟩
  · intro s d ds hip hnb
    simp only [replayRun]
    rcases hda : applyDelta s d with e | s2
    · simp
    · exfalso
      simp only [applyDelta] at hda
      split_ifs at hda with h1 h2 h3 h4
      all_goals simp only [Except.ok.injEq, reduceCtorEq] at hda
      exact h4 ⟨hip, hnb⟩

/-- C4 witness: a concrete delta on a two-sided book rebuilds a valid
snapshot (invariant holds after the apply), and a concrete crossing delta
(bid set above the ask) makes the run exit 1. -/
theorem c4_top_of_book_invariant_witness :
    bookValid (ReplayState.book
      { bids := [(100, 5), (99, 2)], asks := [(101, 6)], last_seq := 8, last_ts := 60,
        snapshot_in_progress := false,
        book := { ts_ms := 60, best_bid := 100, best_ask := 101, bid_size := 5, ask_size := 6,
                  bids := [⟨100, 5⟩, ⟨99, 2⟩], asks := [⟨101, 6⟩] } }) ∧
    replayRun
      { bids := [(100, 5)], asks := [(101, 6)], last_seq := 7, last_ts := 50,
        snapshot_in_progress := false }
      [{ seq := 8, prev_seq := 7, ts_ms := 60, side := Side.Buy, price := 102, qty := 2 }] = 1 := by
  constructor
  · refine c4_top_of_book_invariant.1
      { bids := [(100, 5)], asks := [(101, 6)], last_seq := 7, last_ts := 50,
        snapshot_in_progress := false }
      { seq := 8, prev_seq := 7, ts_ms := 60, side := Side.Buy, price := 99, qty := 2 } _ ?_ rfl
    norm_num [applyDelta, applyDeltaState, applyLevel, snapshotStart, rebuildBook,
      insertBid, insertAsk, eraseLevel, ratAbs, bookValid, max_def]
  · refine c4_top_of_book_invariant.2
      { bids := [(100, 5)], asks := [(101, 6)], last_seq := 7, last_ts := 50,
        snapshot_in_progress := false }
      { seq := 8, prev_seq := 7, ts_ms := 60, side := Side.Buy, price := 102, qty := 2 } [] ?_ ?_
    · norm_num [applyDeltaState, applyLevel, snapshotStart, rebuildBook,
        insertBid, insertAsk, eraseLevel, ratAbs, max_def]
    · norm_num [applyDeltaState, applyLevel, snapshotStart, rebuildBook,
        insertBid, insertAsk, eraseLevel, ratAbs, bookValid, max_def]

/-- C1: the claim says `apply_fill` is fatal on every terminal status
including `Rejected`, and that no fill is ever applied to a terminal order.
In the source the terminal check of `OrderManager::apply_fill` lists only
`Cancelled`, `Expired`, `Replaced` and `Filled`: a fill against a `Rejected`
order is accepted.  Concretely: place order 1 (Buy, qty 1), mark it rejected,
then apply a Buy fill of 1/2 — `apply_fill` returns `true`, the error flag
stays clear, and the order transitions `Rejected → Partial`. -/
theorem c1_apply_fill_accepts_rejected_order :
    omStatus (omMarkRejected
        (omPlace {} { side := Side.Buy, size := 1, limit_price := 100 } 0 1000).1 1 5) 1 =
      some OrderStatus.Rejected ∧
    (omApplyFill (omMarkRejected
        (omPlace {} { side := Side.Buy, size := 1, limit_price := 100 } 0 1000).1 1 5)
      { order_id := 1, status := FillStatus.Filled, side := Side.Buy, price := 100,
        qty := 1/2, vwap_price := 100, filled_qty := 1/2 } 10).2 = true ∧
    (omApplyFill (omMarkRejected
        (omPlace {} { side := Side.Buy, size := 1, limit_price := 100 } 0 1000).1 1 5)
      { order_id := 1, status := FillStatus.Filled, side := Side.Buy, price := 100,
        qty := 1/2, vwap_price := 100, filled_qty := 1/2 } 10).1.error = false ∧
    omStatus (omApplyFill (omMarkRejected
        (omPlace {} { side := Side.Buy, size := 1, limit_price := 100 } 0 1000).1 1 5)
      { order_id := 1, status := FillStatus.Filled, side := Side.Buy, price := 100,
        qty := 1/2, vwap_price := 100, filled_qty := 1/2 } 10).1 1 =
      some OrderStatus.Partial := by
  norm_num [omPlace, omMarkRejected, omApplyFill, omStatus, omFind, omUpdate, List.lookup]
  simp

/-- C7: `RiskEngine::update` realizes
`min(|prev|, |signed|) * (fill.price - avg) * sign(prev)` on the closed
portion when the fill opposes a nonzero position, then sets the average
price to 0 at flat and to the signed weighted average otherwise, and the
position quantity to `prev + signed` (`signed = +qty` for Buy, `-qty` for
Sell). -/
theorem c7_risk_update_formulas :
    ∀ (p : Position) (f : Fill), f.side = Side.Buy ∨ f.side = Side.Sell →
      ((p.qty ≠ 0 →
        ((0 < p.qty ∧ (if f.side = Side.Buy then f.qty else -f.qty) < 0) ∨
         (p.qty < 0 ∧ 0 < (if f.side = Side.Buy then f.qty else -f.qty))) →
        (riskUpdate p f).realized_pnl = p.realized_pnl +
          min |p.qty| |if f.side = Side.Buy then f.qty else -f.qty| *
            (f.price - p.avg_price) * (if 0 < p.qty then 1 else -1)) ∧
      (riskUpdate p f).avg_price =
        (if p.qty + (if f.side = Side.Buy then f.qty else -f.qty) = 0 then 0
         else (p.avg_price * p.qty + f.price * (if f.side = Side.Buy then f.qty else -f.qty)) /
           (p.qty + (if f.side = Side.Buy then f.qty else -f.qty))) ∧
      (riskUpdate p f).qty = p.qty + (if f.side = Side.Buy then f.qty else -f.qty)) := by
  intro p f _
  refine ⟨?_, ?_, ?_⟩
  · intro hq hcond
    have hre : p.qty ≠ 0 ∧
        ((0 < p.qty ∧ (if f.side = Side.Buy then f.qty else -f.qty) < 0) ∨
         (p.qty < 0 ∧ 0 < (if f.side = Side.Buy then f.qty else -f.qty))) := ⟨hq, hcond⟩
    by_cases hz : p.qty + (if f.side = Side.Buy then f.qty else -f.qty) = 0 <;>
      simp [riskUpdate, hre, hz, ratAbs_eq_abs]
  · by_cases hre : p.qty ≠ 0 ∧
        ((0 < p.qty ∧ (if f.side = Side.Buy then f.qty else -f.qty) < 0) ∨
         (p.qty < 0 ∧ 0 < (if f.side = Side.Buy then f.qty else -f.qty))) <;>
      by_cases hz : p.qty + (if f.side = Side.Buy then f.qty else -f.qty) = 0 <;>
      simp [riskUpdate, hre, hz, ratAbs_eq_abs]
  · by_cases hre : p.qty ≠ 0 ∧
        ((0 < p.qty ∧ (if f.side = Side.Buy then f.qty else -f.qty) < 0) ∨
         (p.qty < 0 ∧ 0 < (if f.side = Side.Buy then f.qty else -f.qty))) <;>
      by_cases hz : p.qty + (if f.side = Side.Buy then f.qty else -f.qty) = 0 <;>
      simp [riskUpdate, hre, hz, ratAbs_eq_abs]

/-- C7 witness: a long 2 @ 100 hit by a Sell of 3 @ 110 realizes
`2 * (110 - 100) * 1 = 20`, flips to qty -1 and re-averages at 130. -/
theorem c7_risk_update_formulas_witness :
    (riskUpdate { qty := 2, avg_price := 100 }
      { side := Side.Sell, qty := 3, price := 110 }).realized_pnl = 20 ∧
    (riskUpdate { qty := 2, avg_price := 100 }
      { side := Side.Sell, qty := 3, price := 110 }).avg_price = 130 ∧
    (riskUpdate { qty := 2, avg_price := 100 }
      { side := Side.Sell, qty := 3, price := 110 }).qty = -1 := by
  obtain ⟨h1, h2, h3⟩ := c7_risk_update_formulas { qty := 2, avg_price := 100 }
    { side := Side.Sell, qty := 3, price := 110 } (Or.inr rfl)
  refine ⟨?_, ?_, ?_⟩
  · rw [h1 (by norm_num) (Or.inl ⟨by norm_num, by norm_num [show (if Side.Sell = Side.Buy
      then (3:ℚ) else -3) = -3 from rfl]⟩)]
    simp
    norm_num [min_def]
  · rw [h2]
    simp
    norm_num
  · rw [h3]
    simp
    norm_num

end Helix

namespace Helix

/-- If the Buy-side level resolution is empty, the asks depth vector is empty
and the ask top-of-book is unpopulated. -/
theorem sideLevels_buy_nil (book : OrderbookSnapshot) :
    sideLevels book Side.Buy = [] →
    book.asks = [] ∧ ¬(0 < book.best_ask ∧ 0 < book.ask_size) := by
  intro h
  simp only [sideLevels] at h
  by_cases ha : book.asks = []
  · refine ⟨ha, ?_⟩
    intro hcon
    simp [ha, hcon] at h
  · simp [ha] at h

/-- If the Sell-side level resolution is empty, the bids depth vector is
empty and the bid top-of-book is unpopulated. -/
theorem sideLevels_sell_nil (book : OrderbookSnapshot) :
    sideLevels book Side.Sell = [] →
    book.bids = [] ∧ ¬(0 < book.best_bid ∧ 0 < book.bid_size) := by
  intro h
  simp only [sideLevels] at h
  by_cases hb : book.bids = []
  · refine ⟨hb, ?_⟩
    intro hcon
    simp [hb, hcon] at h
  · simp [hb] at h

/-- C5 (amended, general part): matching conservation of `simulate`. -/
theorem c5_matching_conservation :
    (∀ (cfg : MatchCfg) (a : Action) (book : OrderbookSnapshot),
      a.side = Side.Buy ∨ a.side = Side.Sell → 0 < a.size →
      (simulate cfg a book).status = FillStatus.Filled →
      (simulate cfg a book).filled_qty = (tradedAmounts (sideLevels book a.side) a.size).sum ∧
      (simulate cfg a book).vwap_price =
        (List.zipWith (fun t (l : PriceLevel) => t * l.price)
          (tradedAmounts (sideLevels book a.side) a.size) (sideLevels book a.side)).sum /
          (tradedAmounts (sideLevels book a.side) a.size).sum ∧
      0 ≤ (simulate cfg a book).filled_qty ∧
      (simulate cfg a book).filled_qty ≤ a.size ∧
      (simulate cfg a book).unfilled_qty = a.size - (simulate cfg a book).filled_qty ∧
      ((simulate cfg a book).isPartial = true ↔ (simulate cfg a book).filled_qty < a.size) ∧
      (simulate cfg a book).levels_crossed =
        (tradedAmounts (sideLevels book a.side) a.size).countP (fun t => decide (0 < t))) ∧
    ((simulate { tick_size := 1/10 } { side := Side.Buy, size := 5/2 }
        { best_bid := 99, best_ask := 101, bid_size := 1, ask_size := 1,
          bids := [⟨99,1⟩,⟨98,1⟩,⟨97,1⟩], asks := [⟨101,1⟩,⟨102,1⟩,⟨103,1⟩] }).filled_qty = 5/2 ∧
     (simulate { tick_size := 1/10 } { side := Side.Buy, size := 5/2 }
        { best_bid := 99, best_ask := 101, bid_size := 1, ask_size := 1,
          bids := [⟨99,1⟩,⟨98,1⟩,⟨97,1⟩], asks := [⟨101,1⟩,⟨102,1⟩,⟨103,1⟩] }).levels_crossed = 3 ∧
     (simulate { tick_size := 1/10 } { side := Side.Buy, size := 5/2 }
        { best_bid := 99, best_ask := 101, bid_size := 1, ask_size := 1,
          bids := [⟨99,1⟩,⟨98,1⟩,⟨97,1⟩], asks := [⟨101,1⟩,⟨102,1⟩,⟨103,1⟩] }).vwap_price = 509/5 ∧
     (simulate { tick_size := 1/10 } { side := Side.Buy, size := 5/2 }
        { best_bid := 99, best_ask := 101, bid_size := 1, ask_size := 1,
          bids := [⟨99,1⟩,⟨98,1⟩,⟨97,1⟩], asks := [⟨101,1⟩,⟨102,1⟩,⟨103,1⟩] }).slippage_ticks = 8 ∧
     (simulate { tick_size := 1/10 } { side := Side.Buy, size := 5/2 }
        { best_bid := 99, best_ask := 101, bid_size := 1, ask_size := 1,
          bids := [⟨99,1⟩,⟨98,1⟩,⟨97,1⟩], asks := [⟨101,1⟩,⟨102,1⟩,⟨103,1⟩] }).isPartial = false) := by
  constructor
  · intro cfg a book hside hsz hst
    have hsz' : ¬ a.size ≤ 0 := not_le.mpr hsz
    have hbad : ¬(a.side ≠ Side.Buy ∧ a.side ≠ Side.Sell) := by
      rcases hside with h | h <;> simp [h]
    by_cases hemp : sideLevels book a.side = []
    · exfalso
      simp [simulate, hbad, hsz', hemp, Fill.rejected] at hst
    by_cases hf0 : (walk (sideLevels book a.side) a.size).1 ≤ 0
    · exfalso
      simp [simulate, hbad, hsz', hemp, hf0, Fill.rejected] at hst
    by_cases hfok : cfg.reject_on_insufficient_depth = true ∧
        0 < a.size - (walk (sideLevels book a.side) a.size).1
    · exfalso
      simp [simulate, hbad, hsz', hemp, hf0, hfok, Fill.rejected] at hst
    have hle : (walk (sideLevels book a.side) a.size).1 ≤ a.size :=
      walk_filled_le _ _ (le_of_lt hsz)
    refine ⟨?_, ?_, ?_, ?_, ?_, ?_, ?_⟩
    · simp only [simulate, if_neg hbad, if_neg hsz', if_neg hemp, if_neg hf0, if_neg hfok]
      exact walk_filled_eq_sum _ _
    · simp only [simulate, if_neg hbad, if_neg hsz', if_neg hemp, if_neg hf0, if_neg hfok]
      rw [walk_notional_eq_sum, walk_filled_eq_sum]
    · simp only [simulate, if_neg hbad, if_neg hsz', if_neg hemp, if_neg hf0, if_neg hfok]
      exact walk_filled_nonneg _ _
    · simp only [simulate, if_neg hbad, if_neg hsz', if_neg hemp, if_neg hf0, if_neg hfok]
      exact hle
    · simp only [simulate, if_neg hbad, if_neg hsz', if_neg hemp, if_neg hf0, if_neg hfok]
      by_cases hrem : 0 < a.size - (walk (sideLevels book a.side) a.size).1
      · simp [hrem]
      · have h0 : a.size - (walk (sideLevels book a.side) a.size).1 = 0 :=
          le_antisymm (not_lt.mp hrem) (by linarith)
        simp [hrem, h0]
    · simp only [simulate, if_neg hbad, if_neg hsz', if_neg hemp, if_neg hf0, if_neg hfok]
      constructor
      · intro hdec
        have := of_decide_eq_true hdec
        linarith
      · intro hlt
        exact decide_eq_true (by linarith)
    · simp only [simulate, if_neg hbad, if_neg hsz', if_neg hemp, if_neg hf0, if_neg hfok]
      exact walk_crossed_eq_count _ _
  · norm_num [simulate, sideLevels, walk, bestPriceForSide]
    simp

end Helix

namespace Helix

/-- C5 counterexample: on the S2 book the code fills 1 @ 101, 1 @ 102, 0.5 @
103, so the VWAP is 254.5 / 2.5 = 101.8 = 509/5 (the claim's 101.6 = 508/5
is a miscalculation), and the slippage is (101.8 - 101) / 0.1 = 8 ticks, not
6. -/
theorem c5_s2_vwap_differs :
    (simulate { tick_size := 1/10 } { side := Side.Buy, size := 5/2 }
      { best_bid := 99, best_ask := 101, bid_size := 1, ask_size := 1,
        bids := [⟨99,1⟩,⟨98,1⟩,⟨97,1⟩], asks := [⟨101,1⟩,⟨102,1⟩,⟨103,1⟩] }).vwap_price = 509/5 ∧
    (509/5 : ℚ) ≠ 508/5 ∧
    (simulate { tick_size := 1/10 } { side := Side.Buy, size := 5/2 }
      { best_bid := 99, best_ask := 101, bid_size := 1, ask_size := 1,
        bids := [⟨99,1⟩,⟨98,1⟩,⟨97,1⟩], asks := [⟨101,1⟩,⟨102,1⟩,⟨103,1⟩] }).slippage_ticks = 8 ∧
    (8 : ℚ) ≠ 6 := by
  refine ⟨?_, by norm_num, ?_, by norm_num⟩
  · norm_num [simulate, sideLevels, walk, bestPriceForSide]
    simp
  · norm_num [simulate, sideLevels, walk, bestPriceForSide]
    simp

/-- C5 witness: the general conservation part applied to the S2 scenario. -/
theorem c5_matching_conservation_witness :
    (simulate { tick_size := 1/10 } { side := Side.Buy, size := 5/2 }
      { best_bid := 99, best_ask := 101, bid_size := 1, ask_size := 1,
        bids := [⟨99,1⟩,⟨98,1⟩,⟨97,1⟩], asks := [⟨101,1⟩,⟨102,1⟩,⟨103,1⟩] }).filled_qty ≤ 5/2 ∧
    (simulate { tick_size := 1/10 } { side := Side.Buy, size := 5/2 }
      { best_bid := 99, best_ask := 101, bid_size := 1, ask_size := 1,
        bids := [⟨99,1⟩,⟨98,1⟩,⟨97,1⟩], asks := [⟨101,1⟩,⟨102,1⟩,⟨103,1⟩] }).unfilled_qty =
      5/2 - (simulate { tick_size := 1/10 } { side := Side.Buy, size := 5/2 }
        { best_bid := 99, best_ask := 101, bid_size := 1, ask_size := 1,
          bids := [⟨99,1⟩,⟨98,1⟩,⟨97,1⟩], asks := [⟨101,1⟩,⟨102,1⟩,⟨103,1⟩] }).filled_qty := by
  have h := c5_matching_conservation.1 { tick_size := 1/10 } { side := Side.Buy, size := 5/2 }
    { best_bid := 99, best_ask := 101, bid_size := 1, ask_size := 1,
      bids := [⟨99,1⟩,⟨98,1⟩,⟨97,1⟩], asks := [⟨101,1⟩,⟨102,1⟩,⟨103,1⟩] }
    (Or.inl rfl) (by norm_num)
    (by norm_num [simulate, sideLevels, walk, bestPriceForSide]; simp)
  exact ⟨h.2.2.2.1, h.2.2.2.2.1⟩

/-- C6: for every accepted action with an explicit positive limit price and
positive steps, the quantity is floored to `qty_step` and the price is
floored (Buy) / ceiled (Sell) to `tick_size`; with the S3 rules, Buy
{100.19, 1.019} normalizes to {100.1, 1.01} and Sell {100.01, 2.237} to
{100.1, 2.23} (prices and quantities written as exact rationals). -/
theorem c6_rules_quantization :
    (∀ (cfg : RulesConfig) (a : Action) (book : OrderbookSnapshot),
      0 < cfg.qty_step → 0 < cfg.tick_size → 0 < a.limit_price →
      (rulesApply cfg a book).ok = true →
      (rulesApply cfg a book).normalized.size = (⌊a.size / cfg.qty_step⌋ : ℚ) * cfg.qty_step ∧
      (a.side = Side.Buy →
        (rulesApply cfg a book).normalized.limit_price =
          (⌊a.limit_price / cfg.tick_size⌋ : ℚ) * cfg.tick_size) ∧
      (a.side = Side.Sell →
        (rulesApply cfg a book).normalized.limit_price =
          (⌈a.limit_price / cfg.tick_size⌉ : ℚ) * cfg.tick_size)) ∧
    ((rulesApply { tick_size := 1/10, qty_step := 1/100, min_qty := 1/1000, min_notional := 0 }
        { side := Side.Buy, size := 1019/1000, limit_price := 10019/100 }
        { best_bid := 100, best_ask := 501/5 }).ok = true ∧
     (rulesApply { tick_size := 1/10, qty_step := 1/100, min_qty := 1/1000, min_notional := 0 }
        { side := Side.Buy, size := 1019/1000, limit_price := 10019/100 }
        { best_bid := 100, best_ask := 501/5 }).normalized.limit_price = 1001/10 ∧
     (rulesApply { tick_size := 1/10, qty_step := 1/100, min_qty := 1/1000, min_notional := 0 }
        { side := Side.Buy, size := 1019/1000, limit_price := 10019/100 }
        { best_bid := 100, best_ask := 501/5 }).normalized.size = 101/100 ∧
     (rulesApply { tick_size := 1/10, qty_step := 1/100, min_qty := 1/1000, min_notional := 0 }
        { side := Side.Sell, size := 2237/1000, limit_price := 10001/100 }
        { best_bid := 100, best_ask := 501/5 }).ok = true ∧
     (rulesApply { tick_size := 1/10, qty_step := 1/100, min_qty := 1/1000, min_notional := 0 }
        { side := Side.Sell, size := 2237/1000, limit_price := 10001/100 }
        { best_bid := 100, best_ask := 501/5 }).normalized.limit_price = 1001/10 ∧
     (rulesApply { tick_size := 1/10, qty_step := 1/100, min_qty := 1/1000, min_notional := 0 }
        { side := Side.Sell, size := 2237/1000, limit_price := 10001/100 }
        { best_bid := 100, best_ask := 501/5 }).normalized.size = 223/100) := by
  constructor
  · intro cfg a book hstep htick hlp hok
    have hstep' : ¬ cfg.qty_step ≤ 0 := not_le.mpr hstep
    have htick' : ¬ cfg.tick_size ≤ 0 := not_le.mpr htick
    by_cases h1 : a.side ≠ Side.Buy ∧ a.side ≠ Side.Sell
    · exfalso
      simp only [rulesApply] at hok
      rw [if_pos h1] at hok
      simp at hok
    by_cases h2 : a.size ≤ 0
    · exfalso
      simp only [rulesApply] at hok
      rw [if_neg h1, if_pos h2] at hok
      simp at hok
    by_cases h3 : (if 0 < cfg.qty_step then floorToStep a.size cfg.qty_step else a.size) <
        cfg.min_qty - 1/1000000000
    · exfalso
      simp only [rulesApply] at hok
      rw [if_neg h1, if_neg h2, if_pos h3] at hok
      simp at hok
    have hqs : (if 0 < cfg.qty_step then floorToStep a.size cfg.qty_step else a.size) =
        (⌊a.size / cfg.qty_step⌋ : ℚ) * cfg.qty_step := by
      rw [if_pos hstep]
      unfold floorToStep
      rw [if_neg hstep']
    have hpc : 0 < a.limit_price ∧ 0 < cfg.tick_size := ⟨hlp, htick⟩
    refine ⟨?_, ?_, ?_⟩
    · simp only [rulesApply, if_neg h1, if_neg h2, if_neg h3]
      split_ifs
      all_goals unfold floorToStep
      all_goals rw [if_neg hstep']
    · intro hb
      simp only [rulesApply, if_neg h1, if_neg h2, if_neg h3]
      split_ifs
      all_goals unfold floorToStep
      all_goals rw [if_neg htick']
    · intro hs
      have hb : ¬ a.side = Side.Buy := by simp [hs]
      simp only [rulesApply, if_neg h1, if_neg h2, if_neg h3]
      split_ifs
      all_goals unfold ceilToStep
      all_goals rw [if_neg htick']
  · have hceil : (⌈(10001/100 : ℚ) / (1/10)⌉ : ℤ) = 1001 := by
      rw [Int.ceil_eq_iff]
      norm_num
    have hceil2 : (⌈(10001/10 : ℚ)⌉ : ℤ) = 1001 := by
      rw [Int.ceil_eq_iff]
      norm_num
    refine ⟨?_, ?_, ?_, ?_, ?_, ?_⟩ <;>
      (norm_num [rulesApply, floorToStep, ceilToStep, refPriceForAction, hceil, hceil2] <;>
        try simp) <;> try norm_num

/-- C6 witness: the general quantization part applied to the S3 Buy input. -/
theorem c6_rules_quantization_witness :
    (rulesApply { tick_size := 1/10, qty_step := 1/100, min_qty := 1/1000, min_notional := 0 }
      { side := Side.Buy, size := 1019/1000, limit_price := 10019/100 }
      { best_bid := 100, best_ask := 501/5 }).normalized.size =
        (⌊(1019/1000 : ℚ) / (1/100)⌋ : ℚ) * (1/100) ∧
    (rulesApply { tick_size := 1/10, qty_step := 1/100, min_qty := 1/1000, min_notional := 0 }
      { side := Side.Buy, size := 1019/1000, limit_price := 10019/100 }
      { best_bid := 100, best_ask := 501/5 }).normalized.limit_price =
        (⌊(10019/100 : ℚ) / (1/10)⌋ : ℚ) * (1/10) := by
  have h := c6_rules_quantization.1
    { tick_size := 1/10, qty_step := 1/100, min_qty := 1/1000, min_notional := 0 }
    { side := Side.Buy, size := 1019/1000, limit_price := 10019/100 }
    { best_bid := 100, best_ask := 501/5 }
    (by norm_num) (by norm_num) (by norm_num)
    (by norm_num [rulesApply, floorToStep, ceilToStep, refPriceForAction])
  exact ⟨h.1, h.2.1 rfl⟩

/-- C10: when the matched side's depth vector is empty but its top-of-book
is populated, `side_levels` resolves to the single synthetic level
(best price, top size) and `simulate` does not reject `NoAsk`/`NoBid`; the
`NoAsk`/`NoBid` rejection happens only when the depth vector and the
same-side top-of-book are both empty or non-positive. -/
theorem c10_top_of_book_fallback :
    (∀ book : OrderbookSnapshot, book.asks = [] → 0 < book.best_ask → 0 < book.ask_size →
      sideLevels book Side.Buy = [⟨book.best_ask, book.ask_size⟩]) ∧
    (∀ book : OrderbookSnapshot, book.bids = [] → 0 < book.best_bid → 0 < book.bid_size →
      sideLevels book Side.Sell = [⟨book.best_bid, book.bid_size⟩]) ∧
    (∀ (cfg : MatchCfg) (a : Action) (book : OrderbookSnapshot),
      (simulate cfg a book).reason = RejectReason.NoAsk →
      a.side = Side.Buy ∧ book.asks = [] ∧ ¬(0 < book.best_ask ∧ 0 < book.ask_size)) ∧
    (∀ (cfg : MatchCfg) (a : Action) (book : OrderbookSnapshot),
      (simulate cfg a book).reason = RejectReason.NoBid →
      a.side = Side.Sell ∧ book.bids = [] ∧ ¬(0 < book.best_bid ∧ 0 < book.bid_size)) := by
  refine ⟨?_, ?_, ?_, ?_⟩
  · intro book h1 h2 h3
    simp [sideLevels, h1, h2, h3]
  · intro book h1 h2 h3
    simp [sideLevels, h1, h2, h3]
  · intro cfg a book h
    by_cases hbad : a.side ≠ Side.Buy ∧ a.side ≠ Side.Sell
    · exfalso
      simp only [simulate, if_pos hbad] at h
      simp [Fill.rejected] at h
    by_cases hsz : a.size ≤ 0
    · exfalso
      simp only [simulate, if_neg hbad, if_pos hsz] at h
      simp [Fill.rejected] at h
    by_cases hemp : sideLevels book a.side = []
    · by_cases hb : a.side = Side.Buy
      · rw [hb] at hemp
        exact ⟨hb, (sideLevels_buy_nil book hemp).1, (sideLevels_buy_nil book hemp).2⟩
      · exfalso
        simp only [simulate, if_neg hbad, if_neg hsz, if_pos hemp] at h
        simp [Fill.rejected, hb] at h
    · exfalso
      by_cases hf0 : (walk (sideLevels book a.side) a.size).1 ≤ 0
      · simp only [simulate, if_neg hbad, if_neg hsz, if_neg hemp, if_pos hf0] at h
        simp [Fill.rejected] at h
      by_cases hfok : cfg.reject_on_insufficient_depth = true ∧
          0 < a.size - (walk (sideLevels book a.side) a.size).1
      · simp only [simulate, if_neg hbad, if_neg hsz, if_neg hemp, if_neg hf0, if_pos hfok] at h
        simp [Fill.rejected] at h
      · simp only [simulate, if_neg hbad, if_neg hsz, if_neg hemp, if_neg hf0, if_neg hfok] at h
        simp at h
  · intro cfg a book h
    by_cases hbad : a.side ≠ Side.Buy ∧ a.side ≠ Side.Sell
    · exfalso
      simp only [simulate, if_pos hbad] at h
      simp [Fill.rejected] at h
    by_cases hsz : a.size ≤ 0
    · exfalso
      simp only [simulate, if_neg hbad, if_pos hsz] at h
      simp [Fill.rejected] at h
    by_cases hemp : sideLevels book a.side = []
    · by_cases hb : a.side = Side.Buy
      · exfalso
        simp only [simulate, if_neg hbad, if_neg hsz, if_pos hemp] at h
        simp [Fill.rejected, hb] at h
      · have hs : a.side = Side.Sell := by
          rcases not_and_or.mp hbad with hx | hx
          · exact absurd (not_not.mp hx) hb
          · exact not_not.mp hx
        rw [hs] at hemp
        exact ⟨hs, (sideLevels_sell_nil book hemp).1, (sideLevels_sell_nil book hemp).2⟩
    · exfalso
      by_cases hf0 : (walk (sideLevels book a.side) a.size).1 ≤ 0
      · simp only [simulate, if_neg hbad, if_neg hsz, if_neg hemp, if_pos hf0] at h
        simp [Fill.rejected] at h
      by_cases hfok : cfg.reject_on_insufficient_depth = true ∧
          0 < a.size - (walk (sideLevels book a.side) a.size).1
      · simp only [simulate, if_neg hbad, if_neg hsz, if_neg hemp, if_neg hf0, if_pos hfok] at h
        simp [Fill.rejected] at h
      · simp only [simulate, if_neg hbad, if_neg hsz, if_neg hemp, if_neg hf0, if_neg hfok] at h
        simp at h

/-- C10 witness: fallback on a book with empty ask depth but populated ask
top-of-book, and the NoAsk decomposition on a fully empty book. -/
theorem c10_top_of_book_fallback_witness :
    sideLevels { best_bid := 99, best_ask := 101, bid_size := 2, ask_size := 3 } Side.Buy =
      [⟨101, 3⟩] ∧
    (({ side := Side.Buy, size := 1 } : Action).side = Side.Buy ∧
      ({} : OrderbookSnapshot).asks = [] ∧
      ¬(0 < ({} : OrderbookSnapshot).best_ask ∧ 0 < ({} : OrderbookSnapshot).ask_size)) := by
  constructor
  · exact c10_top_of_book_fallback.1
      { best_bid := 99, best_ask := 101, bid_size := 2, ask_size := 3 }
      rfl (by norm_num) (by norm_num)
  · exact c10_top_of_book_fallback.2.2.1 { tick_size := 1/10 } { side := Side.Buy, size := 1 } {}
      (by norm_num [simulate, sideLevels, Fill.rejected])

end Helix
